import Mathlib

/-!
Verification of the block-signal repository's core against its
natural-language specification.

The repository contains two variants of the application:

1. the structured backend (packages under backend/ plus the machine
   package: Machine.Process, Manager, RingBuffer, judge) — this is the
   program the specification's data model (machine_id, trigger_state,
   trigger_count, hit_*) describes;
2. a standalone simplified single-file program (root main.go) with a
   single global runtime (runStateMachine, judgeState, armHitLocked).

Both are embedded below, shallowly: Go methods that mutate a receiver
become functions returning the updated state, int64/int become Int
(no overflow is relevant to any claim), Go strings handled byte-wise
become lists of characters (all relevant inputs are ASCII), and the
unspecified iteration order of a Go map becomes an explicit list giving
the iteration order.
-/

namespace machine

/-- Block judgement state. The source declares a bool-backed type
with OFF = false and ON = true. -/
abbrev State := Bool

/-- State ON (source: true). -/
def ON : State := true

/-- State OFF (source: false). -/
def OFF : State := false

/-- Machine configuration, from the machine package's Config struct. -/
structure Config where
  ID : String
  TriggerState : State
  TriggerCount : Int
  HitEnabled : Bool
  HitExpect : State
  HitOffset : Int
  Enabled : Bool
deriving Repr, DecidableEq

/-- Machine runtime, from the machine package's Runtime struct. -/
structure Runtime where
  Count : Int
  WaitingReverse : Bool
  BaseHeight : Int
  HitWaiting : Bool
  HitTarget : Int
deriving Repr, DecidableEq

/-- Signal, from the machine package's Signal struct. The Type field
holds the string TRIGGER or HIT; time.Time is abstracted as an Int. -/
structure Signal where
  MachineID : String
  typ : String
  Height : Int
  Time : Int
deriving Repr, DecidableEq

/-- Machine instance: configuration plus runtime. -/
structure Machine where
  Config : Config
  Runtime : Runtime
deriving Repr, DecidableEq

/-- Runtime produced by New and by ResetRuntime: counters cleared,
WaitingReverse set, no pending HIT (Go zero values elsewhere). -/
def initRuntime : Runtime :=
  { Count := 0, WaitingReverse := true, BaseHeight := 0,
    HitWaiting := false, HitTarget := 0 }

/-- ResetRuntime from the machine package: the runtime is replaced by
the zero-value runtime with WaitingReverse true. -/
def ResetRuntime (m : Machine) : Machine :=
  { m with Runtime := initRuntime }

/-- Machine.Process from the machine package, embedded with explicit
state passing: given the configuration and current runtime and one
(height, state) event, it returns the emitted signal (if any) and the
updated runtime. The control flow mirrors the source: disabled check,
then the HIT-waiting branch (which always returns), then the
waiting-reverse branch (which always returns), then counting and the
trigger check. -/
def Process (cfg : Config) (rt : Runtime) (height : Int) (state : State)
    (now : Int) : Option Signal × Runtime :=
  if !cfg.Enabled then
    (none, rt)
  else if rt.HitWaiting then
    -- HIT waiting phase: observed exactly once; the branch returns.
    if height = rt.HitTarget then
      if state = cfg.HitExpect then
        (some { MachineID := cfg.ID, typ := "HIT", Height := height,
                Time := now },
         { rt with HitWaiting := false })
      else
        (none, { rt with HitWaiting := false })
    else if rt.HitTarget ≤ height then
      (none, { rt with HitWaiting := false })
    else
      (none, rt)
  else if rt.WaitingReverse then
    -- waiting-reverse phase: the branch returns.
    if state ≠ cfg.TriggerState then
      (none, { rt with WaitingReverse := false, Count := 0 })
    else
      (none, rt)
  else
    -- counting phase
    let rt1 : Runtime :=
      if state = cfg.TriggerState then { rt with Count := rt.Count + 1 }
      else { rt with Count := 0 }
    -- trigger condition
    if cfg.TriggerCount ≤ rt1.Count then
      let rt2 : Runtime := { rt1 with Count := 0, WaitingReverse := true }
      let rt3 : Runtime :=
        if cfg.HitEnabled ∧ 0 < cfg.HitOffset then
          { rt2 with HitWaiting := true,
                     HitTarget := height + cfg.HitOffset }
        else rt2
      (some { MachineID := cfg.ID, typ := "TRIGGER", Height := height,
              Time := now },
       rt3)
    else
      (none, rt1)

/-- One (height, state, time) event as consumed by Process. -/
structure Event where
  height : Int
  state : State
  time : Int
deriving Repr, DecidableEq

/-- Run one machine over a list of events, collecting the emitted
signals in order and threading the runtime. -/
def processRun (cfg : Config) (rt : Runtime) : List Event → List Signal × Runtime
  | [] => ([], rt)
  | e :: es =>
    let step := Process cfg rt e.height e.state e.time
    let rest := processRun cfg step.2 es
    (step.1.toList ++ rest.1, rest.2)

/-- Manager.ProcessBlock from the manager: for every machine in the
map's iteration order (Go leaves that order unspecified; it is taken
here as the list order), run Process, thread each machine's updated
runtime, and collect the non-nil signals in iteration order. -/
def ProcessBlock (height : Int) (state : State) (now : Int) :
    List Machine → List Signal × List Machine
  | [] => ([], [])
  | m :: ms =>
    let step := Process m.Config m.Runtime height state now
    let rest := ProcessBlock height state now ms
    (step.1.toList ++ rest.1, { m with Runtime := step.2 } :: rest.2)

/-- Manager.ResetAllRuntime from the manager: every machine's runtime
is reset. -/
def ResetAllRuntime (ms : List Machine) : List Machine :=
  ms.map ResetRuntime

end machine

namespace block

/-- Canonical block record, from the block package's Block struct
(height and hash are kept as strings by the source). -/
structure Block where
  Height : String
  Hash : String
  TimeUnix : Int
  SourceID : String
deriving Repr, DecidableEq

/-- Dedup key, from the ring buffer's key struct. -/
structure Key where
  Height : String
  Hash : String
deriving Repr, DecidableEq

/-- RingBuffer state: fixed capacity, newest-first buffer, and the
seen-set (a Go map used as a set, embedded as a duplicate-free list
read up to membership). -/
structure RingBuffer where
  cap : Int
  buf : List Block
  seen : List Key
deriving Repr, DecidableEq

/-- NewRingBuffer from the source: a non-positive capacity argument
falls back to 50; the buffer and the seen-set start empty. -/
def NewRingBuffer (capacity : Int) : RingBuffer :=
  { cap := if capacity ≤ 0 then 50 else capacity, buf := [], seen := [] }

/-- Eviction loop of AddIfNew: while the buffer is longer than the
capacity, drop the last (oldest) entry and remove its key from the
seen-set. Each pass shortens the buffer by one, so the loop runs at
most the buffer's length many times; embedding it with that bound as
structural fuel keeps the definition kernel-evaluable. -/
def trimLoop (cap : Int) : Nat → List Block → List Key →
    List Block × List Key
  | 0, buf, seen => (buf, seen)
  | fuel + 1, buf, seen =>
    if cap < (buf.length : Int) then
      match buf.getLast? with
      | none => (buf, seen)
      | some last =>
        trimLoop cap fuel buf.dropLast
          (seen.filter
            (fun k => k ≠ { Height := last.Height, Hash := last.Hash }))
    else
      (buf, seen)

/-- Eviction loop of AddIfNew with its fuel instantiated. -/
def trimOldest (cap : Int) (buf : List Block) (seen : List Key) :
    List Block × List Key :=
  trimLoop cap buf.length buf seen

/-- RingBuffer.AddIfNew from the source: if the (height, hash) key is
already in the seen-set, return false and leave the ring unchanged;
otherwise insert the block at the front (newest first), add its key,
evict oldest entries while over capacity, and return true. -/
def AddIfNew (r : RingBuffer) (b : Block) : Bool × RingBuffer :=
  let k : Key := { Height := b.Height, Hash := b.Hash }
  if k ∈ r.seen then
    (false, r)
  else
    let buf1 := b :: r.buf
    let seen1 := k :: r.seen
    let trimmed := trimOldest r.cap buf1 seen1
    (true, { r with buf := trimmed.1, seen := trimmed.2 })

/-- RingBuffer.Reset from the source: the buffer and the seen-set are
emptied, the capacity is kept. -/
def Reset (r : RingBuffer) : RingBuffer :=
  { r with buf := [], seen := [] }

/-- Feed a list of blocks through AddIfNew in order and return the
final ring state. -/
def addAll (r : RingBuffer) : List Block → RingBuffer
  | [] => r
  | b :: bs => addAll (AddIfNew r b).2 bs

end block

namespace mainprog

/-- Per-direction trigger rule of the simplified program (Rules.On and
Rules.Off in root main.go). -/
structure Rule where
  Enabled : Bool
  Threshold : Int
deriving Repr, DecidableEq

/-- HIT rule of the simplified program (Rules.Hit in root main.go). -/
structure HitRule where
  Enabled : Bool
  Expect : String
  Offset : Int
deriving Repr, DecidableEq

/-- Rule set of the simplified program. -/
structure Rules where
  On : Rule
  Off : Rule
  Hit : HitRule
deriving Repr, DecidableEq

/-- Global runtime of the simplified program (rt in root main.go);
time.Time fields are abstracted as Int. -/
structure Runtime where
  OnCounter : Int
  OffCounter : Int
  WaitingReverse : Bool
  LastTriggered : String
  BaseHeight : Int
  HitWaiting : Bool
  HitBase : Int
  HitOffset : Int
  HitExpect : String
  HitArmedTime : Int
deriving Repr, DecidableEq

/-- Signal record of the simplified program (TimeISO abstracted as the
Int tick it formats). -/
structure Signal where
  typ : String
  Height : Int
  BaseHeight : Int
  State : String
  Time : Int
deriving Repr, DecidableEq

/-- The reverseOf helper from root main.go. -/
def reverseOf (s : String) : String :=
  if s = "ON" then "OFF" else "ON"

/-- The armHitLocked helper from root main.go: no effect unless the
HIT rule is enabled; the expectation string is normalized to ON/OFF
(default ON) and the offset is raised to at least 1. -/
def armHitLocked (triggerHeight : Int) (rules : Rules) (now : Int)
    (rt : Runtime) : Runtime :=
  if !rules.Hit.Enabled then
    rt
  else
    let e0 := rules.Hit.Expect.trim.toUpper
    let expect := if e0 ≠ "ON" ∧ e0 ≠ "OFF" then "ON" else e0
    let offset := if rules.Hit.Offset < 1 then 1 else rules.Hit.Offset
    { rt with HitWaiting := true, HitBase := triggerHeight,
              HitOffset := offset, HitExpect := expect,
              HitArmedTime := now }

/-- The runStateMachine function from root main.go, embedded with the
same sequential control flow: HIT check first (at exactly
HitBase + HitOffset), then the waiting-reverse logic (whose unmet
branch returns what was collected so far), then counting per observed
state with the trigger checks and HIT arming. -/
def runStateMachine (rules : Rules) (height : Int) (state : String)
    (now : Int) (rt : Runtime) : List Signal × Runtime :=
  -- HIT check first: only observe the target height once.
  let hit :=
    if rt.HitWaiting ∧ height = rt.HitBase + rt.HitOffset then
      if state = rt.HitExpect then
        ([{ typ := "HIT", Height := height, BaseHeight := rt.HitBase,
            State := state, Time := now }],
         { rt with HitWaiting := false })
      else
        ([], { rt with HitWaiting := false })
    else ([], rt)
  let out := hit.1
  let rt1 := hit.2
  -- waitingReverse logic
  let gate : Option Runtime :=
    if rt1.WaitingReverse then
      if rt1.LastTriggered = "" then
        some { rt1 with WaitingReverse := false }
      else if state = reverseOf rt1.LastTriggered then
        some { rt1 with WaitingReverse := false, OnCounter := 0,
                        OffCounter := 0 }
      else
        none
    else some rt1
  match gate with
  | none => (out, rt1)
  | some rt2 =>
    -- counting per target rule
    if state = "ON" then
      let onc : Int :=
        if rules.On.Enabled then
          (if state = "ON" then rt2.OnCounter + 1 else 0)
        else 0
      let rt3 := { rt2 with OffCounter := 0, OnCounter := onc }
      if rules.On.Enabled ∧ 0 < rules.On.Threshold ∧
          rules.On.Threshold ≤ rt3.OnCounter then
        let rt4 := { rt3 with OnCounter := 0, OffCounter := 0,
                              WaitingReverse := true,
                              LastTriggered := "ON",
                              BaseHeight := height }
        let s : Signal := { typ := "ON", Height := height,
                            BaseHeight := height, State := "ON",
                            Time := now }
        (out ++ [s], armHitLocked height rules now rt4)
      else (out, rt3)
    else if state = "OFF" then
      let offc : Int :=
        if rules.Off.Enabled then
          (if state = "OFF" then rt2.OffCounter + 1 else 0)
        else 0
      let rt3 := { rt2 with OnCounter := 0, OffCounter := offc }
      if rules.Off.Enabled ∧ 0 < rules.Off.Threshold ∧
          rules.Off.Threshold ≤ rt3.OffCounter then
        let rt4 := { rt3 with OnCounter := 0, OffCounter := 0,
                              WaitingReverse := true,
                              LastTriggered := "OFF",
                              BaseHeight := height }
        let s : Signal := { typ := "OFF", Height := height,
                            BaseHeight := height, State := "OFF",
                            Time := now }
        (out ++ [s], armHitLocked height rules now rt4)
      else (out, rt3)
    else
      (out, rt2)

end mainprog

/-- Whitespace trim on a character list, modelling strings.TrimSpace
(Go trims Unicode whitespace; ASCII whitespace is what matters for the
hashes the claims concern). -/
def trimChars (l : List Char) : List Char :=
  ((l.dropWhile Char.isWhitespace).reverse.dropWhile Char.isWhitespace).reverse

/-- Lower-casing of a character list, modelling strings.ToLower on
ASCII input. -/
def lowerChars (l : List Char) : List Char :=
  l.map Char.toLower

/-- Upper-casing of a character list, modelling strings.ToUpper on
ASCII input. -/
def upperChars (l : List Char) : List Char :=
  l.map Char.toUpper

namespace mainprog

/-- The charType helper from root main.go: decimal digits map to the
class D, the hex letters a-f to the class A, anything else is
unclassifiable. -/
def charType (c : Char) : Option String :=
  if '0' ≤ c ∧ c ≤ '9' then some "D"
  else if 'a' ≤ c ∧ c ≤ 'f' then some "A"
  else none

/-- The lastDigit helper from root main.go: trim the hash, then scan
from the end for the first decimal digit. -/
def lastDigit (hash : List Char) : Option Char :=
  (trimChars hash).reverse.find? Char.isDigit

/-- The judgeState function from root main.go: the rule name is
trimmed and upper-cased with LUCKY as the default; BIGSMALL and
ODDEVEN classify by the last decimal digit, LUCKY (and any unknown
rule) by the class split of the last two characters of the lower-cased
trimmed hash. The none result is the (state, false) return that the
caller logs and skips. -/
def judgeState (rule : List Char) (hash : List Char) : Option String :=
  let r0 := upperChars (trimChars rule)
  let r := if r0 = [] then "LUCKY".data else r0
  if r = "BIGSMALL".data then
    match lastDigit hash with
    | none => none
    | some d => some (if d ≤ '4' then "ON" else "OFF")
  else if r = "ODDEVEN".data then
    match lastDigit hash with
    | none => none
    | some d =>
      some (if (d.toNat - Char.toNat '0') % 2 = 0 then "ON" else "OFF")
  else
    match (lowerChars (trimChars hash)).reverse with
    | b :: a :: _ =>
      match charType a, charType b with
      | some ta, some tb => some (if ta ≠ tb then "ON" else "OFF")
      | _, _ => none
    | _ => none

/-- The judge-then-machine portion of root main.go's block handling:
when judgeState reports no classification the block is skipped (the
handler returns before running the state machine), otherwise the state
machine runs on the classified state. -/
def handleBlockJudge (rule : List Char) (rules : Rules) (height : Int)
    (hash : List Char) (now : Int) (rt : Runtime) :
    List Signal × Runtime :=
  match judgeState rule hash with
  | none => ([], rt)
  | some st => runStateMachine rules height st now rt

/-- The leading HIT check of runStateMachine, as its own function (the
code block before the waitingReverse logic). -/
def hitCheck (height : Int) (state : String) (now : Int) (rt : Runtime) :
    List Signal × Runtime :=
  if rt.HitWaiting ∧ height = rt.HitBase + rt.HitOffset then
    if state = rt.HitExpect then
      ([{ typ := "HIT", Height := height, BaseHeight := rt.HitBase,
          State := state, Time := now }],
       { rt with HitWaiting := false })
    else
      ([], { rt with HitWaiting := false })
  else ([], rt)

/-- The waitingReverse logic and the counting/trigger blocks of
runStateMachine, as their own function operating on the runtime left
by the HIT check. -/
def gateAndCount (rules : Rules) (height : Int) (state : String)
    (now : Int) (rt1 : Runtime) : List Signal × Runtime :=
  let gate : Option Runtime :=
    if rt1.WaitingReverse then
      if rt1.LastTriggered = "" then
        some { rt1 with WaitingReverse := false }
      else if state = reverseOf rt1.LastTriggered then
        some { rt1 with WaitingReverse := false, OnCounter := 0,
                        OffCounter := 0 }
      else
        none
    else some rt1
  match gate with
  | none => ([], rt1)
  | some rt2 =>
    if state = "ON" then
      let onc : Int :=
        if rules.On.Enabled then
          (if state = "ON" then rt2.OnCounter + 1 else 0)
        else 0
      let rt3 := { rt2 with OffCounter := 0, OnCounter := onc }
      if rules.On.Enabled ∧ 0 < rules.On.Threshold ∧
          rules.On.Threshold ≤ rt3.OnCounter then
        let rt4 := { rt3 with OnCounter := 0, OffCounter := 0,
                              WaitingReverse := true,
                              LastTriggered := "ON",
                              BaseHeight := height }
        let s : Signal := { typ := "ON", Height := height,
                            BaseHeight := height, State := "ON",
                            Time := now }
        ([s], armHitLocked height rules now rt4)
      else ([], rt3)
    else if state = "OFF" then
      let offc : Int :=
        if rules.Off.Enabled then
          (if state = "OFF" then rt2.OffCounter + 1 else 0)
        else 0
      let rt3 := { rt2 with OnCounter := 0, OffCounter := offc }
      if rules.Off.Enabled ∧ 0 < rules.Off.Threshold ∧
          rules.Off.Threshold ≤ rt3.OffCounter then
        let rt4 := { rt3 with OnCounter := 0, OffCounter := 0,
                              WaitingReverse := true,
                              LastTriggered := "OFF",
                              BaseHeight := height }
        let s : Signal := { typ := "OFF", Height := height,
                            BaseHeight := height, State := "OFF",
                            Time := now }
        ([s], armHitLocked height rules now rt4)
      else ([], rt3)
    else
      ([], rt2)

end mainprog

namespace specmodel

/-- Processing order of one event as the specification words it
(section 4.6): the HIT phase (with the spec-adopted skip clearing),
falling through to the reverse gate, which stops the event only when
the state equals the trigger state, then counting and the trigger
check. This definition follows the specification text and exists to be
compared with the embedded code. -/
def specOrderProcess (cfg : machine.Config) (rt : machine.Runtime)
    (height : Int) (state : machine.State) (now : Int) :
    List machine.Signal × machine.Runtime :=
  let step1 : List machine.Signal × machine.Runtime :=
    if rt.HitWaiting ∧ height = rt.HitTarget then
      ((if state = cfg.HitExpect then
          [{ MachineID := cfg.ID, typ := "HIT", Height := height,
             Time := now }]
        else []),
       { rt with HitWaiting := false })
    else if rt.HitWaiting ∧ rt.HitTarget < height then
      ([], { rt with HitWaiting := false })
    else ([], rt)
  let out1 := step1.1
  let rtA := step1.2
  if rtA.WaitingReverse ∧ state = cfg.TriggerState then
    (out1, rtA)
  else
    let rtB :=
      if rtA.WaitingReverse then
        { rtA with WaitingReverse := false, Count := 0 }
      else rtA
    let rtC :=
      if state = cfg.TriggerState then { rtB with Count := rtB.Count + 1 }
      else { rtB with Count := 0 }
    if cfg.TriggerCount ≤ rtC.Count then
      let rtD := { rtC with Count := 0, WaitingReverse := true }
      let rtE :=
        if cfg.HitEnabled ∧ 1 ≤ cfg.HitOffset then
          { rtD with HitWaiting := true,
                     HitTarget := height + cfg.HitOffset }
        else rtD
      (out1 ++ [{ MachineID := cfg.ID, typ := "TRIGGER", Height := height,
                  Time := now }],
       rtE)
    else (out1, rtC)

/-- Modelled from the spec: app.Core.SwitchJudgeRule is not among the
source files (only its HTTP caller is). Per the specification, a
classifier-rule switch installs the new rule, resets every machine
runtime through Manager.ResetAllRuntime and empties the dedup ring
through RingBuffer.Reset; the latter two are embedded from source. -/
structure Core where
  rule : String
  machines : List machine.Machine
  ring : block.RingBuffer

/-- Modelled from the spec: the rule-switch operation of the missing
app.Core, composed of the source-embedded resets. -/
def SwitchJudgeRule (c : Core) (r : String) : Core :=
  { rule := r,
    machines := machine.ResetAllRuntime c.machines,
    ring := block.Reset c.ring }

end specmodel


/-- Count the signals of a given type in a list. -/
def countTyp (t : String) (l : List machine.Signal) : Nat :=
  (l.filter (fun sig => sig.typ == t)).length

/-- C10: a single state machine emits at most one signal per processed
event: Machine.Process returns nothing, one TRIGGER, or one HIT for a
given (height, state) event, and never both a HIT and a TRIGGER from
the same event. -/
theorem c10_at_most_one_signal (cfg : machine.Config) (rt : machine.Runtime)
    (height : Int) (state : machine.State) (now : Int) :
    (machine.Process cfg rt height state now).1.toList.length ≤ 1 ∧
    ((machine.Process cfg rt height state now).1.toList.all
      (fun sig => sig.typ == "TRIGGER" || sig.typ == "HIT")) = true ∧
    (((machine.Process cfg rt height state now).1.toList.any
        (fun sig => sig.typ == "TRIGGER")) &&
      ((machine.Process cfg rt height state now).1.toList.any
        (fun sig => sig.typ == "HIT"))) = false := by
  unfold machine.Process
  split_ifs <;> (try simp_all) <;> (try split_ifs) <;> simp_all

/-- C4: a hit-waiting machine that processes an event whose height is
strictly above the HIT target clears the wait and emits nothing; the
rest of the runtime is untouched. -/
theorem c4_skipped_target_clears (cfg : machine.Config)
    (rt : machine.Runtime) (height : Int) (state : machine.State)
    (now : Int) (hEn : cfg.Enabled = true) (hW : rt.HitWaiting = true)
    (hGt : rt.HitTarget < height) :
    machine.Process cfg rt height state now =
      (none, { rt with HitWaiting := false }) := by
  have h1 : ¬(height = rt.HitTarget) := by omega
  have h2 : rt.HitTarget ≤ height := le_of_lt hGt
  simp [machine.Process, hEn, hW, h1, h2]

/-- Witness for C4 at a concrete machine: HIT armed for height 5, the
stream jumps to height 7, the wait is cleared with no signal. -/
theorem c4_witness :
    machine.Process
      { ID := "m1", TriggerState := machine.ON, TriggerCount := 2,
        HitEnabled := true, HitExpect := machine.OFF, HitOffset := 3,
        Enabled := true }
      { Count := 0, WaitingReverse := true, BaseHeight := 0,
        HitWaiting := true, HitTarget := 5 }
      7 machine.ON 0 =
      (none,
       { Count := 0, WaitingReverse := true, BaseHeight := 0,
         HitWaiting := false, HitTarget := 5 }) :=
  c4_skipped_target_clears _ _ 7 machine.ON 0 rfl rfl (by decide)

lemma process_waiting_same_state (cfg : machine.Config)
    (rt : machine.Runtime) (height : Int) (state : machine.State)
    (now : Int) (hW : rt.WaitingReverse = true)
    (hH : rt.HitWaiting = false) (hs : state = cfg.TriggerState) :
    machine.Process cfg rt height state now = (none, rt) := by
  cases hEn : cfg.Enabled <;> simp [machine.Process, hEn, hW, hH, hs]

lemma processRun_all_trigger_state (cfg : machine.Config)
    (rt : machine.Runtime) (hW : rt.WaitingReverse = true)
    (hH : rt.HitWaiting = false) :
    ∀ pre : List machine.Event,
      (∀ e ∈ pre, e.state = cfg.TriggerState) →
      machine.processRun cfg rt pre = ([], rt) := by
  intro pre
  induction pre with
  | nil => intro _; rfl
  | cons e es ih =>
    intro hpre
    have he : e.state = cfg.TriggerState := hpre e (List.mem_cons_self e es)
    have hes : ∀ x ∈ es, x.state = cfg.TriggerState :=
      fun x hx => hpre x (List.mem_cons_of_mem e hx)
    simp [machine.processRun,
      process_waiting_same_state cfg rt e.height e.state e.time hW hH he,
      ih hes]

lemma processRun_append (cfg : machine.Config) :
    ∀ (l1 l2 : List machine.Event) (rt : machine.Runtime),
      machine.processRun cfg rt (l1 ++ l2) =
        ((machine.processRun cfg rt l1).1 ++
          (machine.processRun cfg (machine.processRun cfg rt l1).2 l2).1,
         (machine.processRun cfg (machine.processRun cfg rt l1).2 l2).2) := by
  intro l1
  induction l1 with
  | nil => intro l2 rt; rfl
  | cons e es ih =>
    intro l2 rt
    simp [machine.processRun, ih]

lemma run_counting_no_trigger (cfg : machine.Config)
    (hEn : cfg.Enabled = true) :
    ∀ (post : List machine.Event) (c b t : Int),
      (∀ e ∈ post, e.state = cfg.TriggerState) →
      (c + (post.length : Int) < cfg.TriggerCount) →
      machine.processRun cfg
        { Count := c, WaitingReverse := false, BaseHeight := b,
          HitWaiting := false, HitTarget := t } post =
        ([], { Count := c + (post.length : Int), WaitingReverse := false,
               BaseHeight := b, HitWaiting := false, HitTarget := t }) := by
  intro post
  induction post with
  | nil =>
    intro c b t _ _
    simp [machine.processRun]
  | cons e es ih =>
    intro c b t hpost hlt
    have he : e.state = cfg.TriggerState := hpost e (List.mem_cons_self e es)
    have hes : ∀ x ∈ es, x.state = cfg.TriggerState :=
      fun x hx => hpost x (List.mem_cons_of_mem e hx)
    have hnt : ¬(cfg.TriggerCount ≤ c + 1) := by
      have : (0 : Int) ≤ (es.length : Int) := Int.ofNat_nonneg es.length
      simp only [List.length_cons] at hlt
      push_cast at hlt
      omega
    have hlt2 : (c + 1) + (es.length : Int) < cfg.TriggerCount := by
      simp only [List.length_cons] at hlt
      push_cast at hlt
      omega
    have hstep :
        machine.Process cfg
          { Count := c, WaitingReverse := false, BaseHeight := b,
            HitWaiting := false, HitTarget := t } e.height e.state e.time =
          (none, { Count := c + 1, WaitingReverse := false, BaseHeight := b,
                   HitWaiting := false, HitTarget := t }) := by
      simp [machine.Process, hEn, he, hnt]
    have := ih (c + 1) b t hes hlt2
    simp [machine.processRun, hstep, this]
    omega

lemma run_counting_trigger (cfg : machine.Config)
    (hEn : cfg.Enabled = true) :
    ∀ (post : List machine.Event) (c b t : Int),
      (∀ e ∈ post, e.state = cfg.TriggerState) →
      (c + (post.length : Int) = cfg.TriggerCount) →
      post ≠ [] →
      ∃ sig : machine.Signal,
        (machine.processRun cfg
          { Count := c, WaitingReverse := false, BaseHeight := b,
            HitWaiting := false, HitTarget := t } post).1 = [sig] ∧
        sig.typ = "TRIGGER" := by
  intro post
  induction post with
  | nil => intro c b t _ _ hne; exact absurd rfl hne
  | cons e es ih =>
    intro c b t hpost heq _
    have he : e.state = cfg.TriggerState := hpost e (List.mem_cons_self e es)
    have hes : ∀ x ∈ es, x.state = cfg.TriggerState :=
      fun x hx => hpost x (List.mem_cons_of_mem e hx)
    cases es with
    | nil =>
      have hc : cfg.TriggerCount ≤ c + 1 := by
        simp only [List.length_cons, List.length_nil] at heq
        push_cast at heq
        omega
      refine ⟨{ MachineID := cfg.ID, typ := "TRIGGER", Height := e.height,
                Time := e.time }, ?_, rfl⟩
      simp [machine.processRun, machine.Process, hEn, he, hc]
    | cons e2 es2 =>
      have hnt : ¬(cfg.TriggerCount ≤ c + 1) := by
        simp only [List.length_cons] at heq
        push_cast at heq
        have : (0 : Int) ≤ (es2.length : Int) := Int.ofNat_nonneg es2.length
        omega
      have heq2 : (c + 1) + (((e2 :: es2).length : Nat) : Int) =
          cfg.TriggerCount := by
        simp only [List.length_cons] at heq ⊢
        push_cast at heq ⊢
        omega
      have hstep :
          machine.Process cfg
            { Count := c, WaitingReverse := false, BaseHeight := b,
              HitWaiting := false, HitTarget := t } e.height e.state e.time =
            (none, { Count := c + 1, WaitingReverse := false, BaseHeight := b,
                     HitWaiting := false, HitTarget := t }) := by
        simp [machine.Process, hEn, he, hnt]
      obtain ⟨sig, hsig, htyp⟩ :=
        ih (c + 1) b t hes heq2 (List.cons_ne_nil e2 es2)
      refine ⟨sig, ?_, htyp⟩
      simp [machine.processRun, hstep]
      exact hsig

/-- C2: no TRIGGER is emitted from a runtime whose reverse gate is
still closed (while waiting, an emitted signal can only be a HIT);
and, from the initial runtime, a run of trigger-state events alone
produces no signal, while one reverse event followed by trigger_count
consecutive trigger-state events produces a TRIGGER. -/
theorem c2_reverse_gate_blocks_trigger :
    (∀ (cfg : machine.Config) (rt : machine.Runtime) (height : Int)
        (state : machine.State) (now : Int) (sig : machine.Signal),
      rt.WaitingReverse = true →
      (machine.Process cfg rt height state now).1 = some sig →
      sig.typ = "HIT") ∧
    (∀ cfg : machine.Config, cfg.Enabled = true → 1 ≤ cfg.TriggerCount →
      ∀ pre : List machine.Event,
        (∀ e ∈ pre, e.state = cfg.TriggerState) →
        (machine.processRun cfg machine.initRuntime pre).1 = [] ∧
        (∀ e0 : machine.Event, e0.state ≠ cfg.TriggerState →
          ∀ post : List machine.Event,
            (∀ e ∈ post, e.state = cfg.TriggerState) →
            ((post.length : Int) = cfg.TriggerCount) →
            ∃ sig : machine.Signal,
              (machine.processRun cfg machine.initRuntime
                (pre ++ e0 :: post)).1 = [sig] ∧
              sig.typ = "TRIGGER")) := by
  constructor
  · intro cfg rt height state now sig hW hsig
    unfold machine.Process at hsig
    split_ifs at hsig <;>
      first
        | (cases hsig; rfl)
        | simp_all
  · intro cfg hEn hN pre hpre
    have hrun := processRun_all_trigger_state cfg machine.initRuntime rfl rfl
      pre hpre
    refine ⟨by simp [hrun], ?_⟩
    intro e0 he0 post hpost hlen
    have hgate :
        machine.Process cfg machine.initRuntime e0.height e0.state e0.time =
          (none, { Count := 0, WaitingReverse := false, BaseHeight := 0,
                   HitWaiting := false, HitTarget := 0 }) := by
      simp [machine.Process, machine.initRuntime, hEn, he0]
    have hne : post ≠ [] := by
      intro hnil
      rw [hnil] at hlen
      simp at hlen
      omega
    obtain ⟨sig, hsig, htyp⟩ :=
      run_counting_trigger cfg hEn post 0 0 0 hpost (by simpa using hlen) hne
    refine ⟨sig, ?_, htyp⟩
    rw [processRun_append, hrun]
    simp [machine.processRun, hgate]
    exact hsig

/-- Witness for C2 at the spec's S2 scenario: trigger ON with count 2,
events ON ON ON then OFF then ON ON; no signal before the OFF, one
TRIGGER at the end. -/
theorem c2_witness :
    (machine.processRun
      { ID := "m1", TriggerState := machine.ON, TriggerCount := 2,
        HitEnabled := false, HitExpect := machine.ON, HitOffset := 0,
        Enabled := true }
      machine.initRuntime
      [{ height := 1, state := machine.ON, time := 0 },
       { height := 2, state := machine.ON, time := 0 },
       { height := 3, state := machine.ON, time := 0 }]).1 = [] ∧
    (∃ sig : machine.Signal,
      (machine.processRun
        { ID := "m1", TriggerState := machine.ON, TriggerCount := 2,
          HitEnabled := false, HitExpect := machine.ON, HitOffset := 0,
          Enabled := true }
        machine.initRuntime
        ([{ height := 1, state := machine.ON, time := 0 },
          { height := 2, state := machine.ON, time := 0 },
          { height := 3, state := machine.ON, time := 0 }] ++
         { height := 4, state := machine.OFF, time := 0 } ::
         [{ height := 5, state := machine.ON, time := 0 },
          { height := 6, state := machine.ON, time := 0 }])).1 = [sig] ∧
      sig.typ = "TRIGGER") := by
  have h := c2_reverse_gate_blocks_trigger.2
    { ID := "m1", TriggerState := machine.ON, TriggerCount := 2,
      HitEnabled := false, HitExpect := machine.ON, HitOffset := 0,
      Enabled := true }
    rfl (by decide)
    [{ height := 1, state := machine.ON, time := 0 },
     { height := 2, state := machine.ON, time := 0 },
     { height := 3, state := machine.ON, time := 0 }]
    (by decide)
  exact ⟨h.1,
    h.2 { height := 4, state := machine.OFF, time := 0 } (by decide)
      [{ height := 5, state := machine.ON, time := 0 },
       { height := 6, state := machine.ON, time := 0 }]
      (by decide) (by decide)⟩

lemma hit_le_trigger_step (cfg : machine.Config) (rt : machine.Runtime)
    (height : Int) (state : machine.State) (now : Int) :
    countTyp "HIT" (machine.Process cfg rt height state now).1.toList +
      (if (machine.Process cfg rt height state now).2.HitWaiting then 1 else 0) ≤
    countTyp "TRIGGER" (machine.Process cfg rt height state now).1.toList +
      (if rt.HitWaiting then 1 else 0) := by
  unfold machine.Process
  split_ifs <;> (try simp_all [countTyp]) <;> (try split_ifs at *) <;>
    simp_all [countTyp]

lemma countTyp_append (t : String) (a b : List machine.Signal) :
    countTyp t (a ++ b) = countTyp t a + countTyp t b := by
  simp [countTyp, List.filter_append]

lemma hit_le_trigger_run (cfg : machine.Config) :
    ∀ (evs : List machine.Event) (rt : machine.Runtime),
      countTyp "HIT" (machine.processRun cfg rt evs).1 +
        (if (machine.processRun cfg rt evs).2.HitWaiting then 1 else 0) ≤
      countTyp "TRIGGER" (machine.processRun cfg rt evs).1 +
        (if rt.HitWaiting then 1 else 0) := by
  intro evs
  induction evs with
  | nil => intro rt; simp [machine.processRun, countTyp]
  | cons e es ih =>
    intro rt
    have hstep := hit_le_trigger_step cfg rt e.height e.state e.time
    have hrest := ih (machine.Process cfg rt e.height e.state e.time).2
    simp only [machine.processRun, countTyp_append] at *
    omega

/-- C3: a HIT is emitted only from a hit-waiting runtime, exactly at
the armed target height and with the expected state, and it clears the
wait; the wait is armed only by a TRIGGER, with target equal to the
trigger height plus hit_offset and only when hit_enabled and the
offset is positive; a pending wait never changes its target; and over
any run the number of HITs never exceeds the number of TRIGGERs plus
the initially pending wait. -/
theorem c3_one_hit_per_trigger :
    (∀ (cfg : machine.Config) (rt : machine.Runtime) (height : Int)
        (state : machine.State) (now : Int),
      (machine.Process cfg rt height state now).1.map machine.Signal.typ =
          some "HIT" →
      rt.HitWaiting = true ∧ height = rt.HitTarget ∧
        state = cfg.HitExpect ∧
        (machine.Process cfg rt height state now).2.HitWaiting = false ∧
        (machine.Process cfg rt height state now).1.map
          machine.Signal.Height = some height) ∧
    (∀ (cfg : machine.Config) (rt : machine.Runtime) (height : Int)
        (state : machine.State) (now : Int),
      rt.HitWaiting = false →
      (machine.Process cfg rt height state now).2.HitWaiting = true →
      cfg.HitEnabled = true ∧ 0 < cfg.HitOffset ∧
        (machine.Process cfg rt height state now).2.HitTarget =
          height + cfg.HitOffset ∧
        (machine.Process cfg rt height state now).1.map machine.Signal.typ =
          some "TRIGGER" ∧
        (machine.Process cfg rt height state now).1.map
          machine.Signal.Height = some height) ∧
    (∀ (cfg : machine.Config) (rt : machine.Runtime) (height : Int)
        (state : machine.State) (now : Int),
      rt.HitWaiting = true →
      (machine.Process cfg rt height state now).2.HitWaiting = true →
      (machine.Process cfg rt height state now).2.HitTarget =
          rt.HitTarget ∧
        (machine.Process cfg rt height state now).1 = none) ∧
    (∀ (cfg : machine.Config) (evs : List machine.Event)
        (rt : machine.Runtime),
      countTyp "HIT" (machine.processRun cfg rt evs).1 +
          (if (machine.processRun cfg rt evs).2.HitWaiting then 1 else 0) ≤
        countTyp "TRIGGER" (machine.processRun cfg rt evs).1 +
          (if rt.HitWaiting then 1 else 0)) := by
  refine ⟨?_, ?_, ?_, fun cfg evs rt => hit_le_trigger_run cfg evs rt⟩
  · intro cfg rt height state now hsig
    unfold machine.Process at hsig ⊢
    split_ifs at hsig <;> (try simp_all) <;> (try split_ifs at *) <;>
      simp_all
  · intro cfg rt height state now hW hW2
    unfold machine.Process at hW2 ⊢
    split_ifs at hW2 <;> (try simp_all) <;> (try split_ifs at *) <;>
      simp_all
  · intro cfg rt height state now hW hW2
    unfold machine.Process at hW2 ⊢
    split_ifs at hW2 <;> (try simp_all) <;> (try split_ifs at *) <;>
      simp_all

/-- Witness for C3: a machine with threshold 1 and HIT offset 3
triggers at height 101; the arming facts given by the theorem are
checked at that concrete input. -/
theorem c3_witness :
    ({ ID := "m1", TriggerState := machine.ON, TriggerCount := 1,
       HitEnabled := true, HitExpect := machine.OFF, HitOffset := 3,
       Enabled := true } : machine.Config).HitEnabled = true ∧
    (0 : Int) < 3 ∧
    (machine.Process
      { ID := "m1", TriggerState := machine.ON, TriggerCount := 1,
        HitEnabled := true, HitExpect := machine.OFF, HitOffset := 3,
        Enabled := true }
      { Count := 0, WaitingReverse := false, BaseHeight := 0,
        HitWaiting := false, HitTarget := 0 }
      101 machine.ON 0).2.HitTarget = 101 + 3 ∧
    (machine.Process
      { ID := "m1", TriggerState := machine.ON, TriggerCount := 1,
        HitEnabled := true, HitExpect := machine.OFF, HitOffset := 3,
        Enabled := true }
      { Count := 0, WaitingReverse := false, BaseHeight := 0,
        HitWaiting := false, HitTarget := 0 }
      101 machine.ON 0).1.map machine.Signal.typ = some "TRIGGER" ∧
    (machine.Process
      { ID := "m1", TriggerState := machine.ON, TriggerCount := 1,
        HitEnabled := true, HitExpect := machine.OFF, HitOffset := 3,
        Enabled := true }
      { Count := 0, WaitingReverse := false, BaseHeight := 0,
        HitWaiting := false, HitTarget := 0 }
      101 machine.ON 0).1.map machine.Signal.Height = some 101 := by
  have h := c3_one_hit_per_trigger.2.1
    { ID := "m1", TriggerState := machine.ON, TriggerCount := 1,
      HitEnabled := true, HitExpect := machine.OFF, HitOffset := 3,
      Enabled := true }
    { Count := 0, WaitingReverse := false, BaseHeight := 0,
      HitWaiting := false, HitTarget := 0 }
    101 machine.ON 0 rfl (by decide)
  exact ⟨h.1, h.2.1, h.2.2.1, h.2.2.2.1, h.2.2.2.2⟩

/-- Counterexample to C1 as stated: in the backend Machine.Process, a
(5, OFF) event arriving while a HIT is awaited for height 5 resolves
the HIT phase (a miss), yet the reverse gate does not process the same
event — the code leaves waiting_reverse set where the specified order
(HIT phase, then reverse gate, then counting) would clear it on the
non-trigger state. -/
theorem c1_counterexample :
    (machine.Process
      { ID := "m1", TriggerState := machine.ON, TriggerCount := 2,
        HitEnabled := true, HitExpect := machine.ON, HitOffset := 3,
        Enabled := true }
      { Count := 0, WaitingReverse := true, BaseHeight := 0,
        HitWaiting := true, HitTarget := 5 }
      5 machine.OFF 0).2.WaitingReverse = true ∧
    (specmodel.specOrderProcess
      { ID := "m1", TriggerState := machine.ON, TriggerCount := 2,
        HitEnabled := true, HitExpect := machine.ON, HitOffset := 3,
        Enabled := true }
      { Count := 0, WaitingReverse := true, BaseHeight := 0,
        HitWaiting := true, HitTarget := 5 }
      5 machine.OFF 0).2.WaitingReverse = false := by
  decide

set_option maxHeartbeats 2000000 in
/-- C1 amended: in the simplified program's runStateMachine the HIT
check, the reverse gate and the counting/trigger step do run in that
order on the same event (the function is their sequential
composition); in the backend Machine.Process, by contrast, an event
arriving while hit_waiting is consumed entirely by the HIT phase — the
count and the reverse gate are left untouched and only a HIT can be
emitted. -/
theorem c1_phase_order :
    (∀ (rules : mainprog.Rules) (height : Int) (state : String)
        (now : Int) (rt : mainprog.Runtime),
      mainprog.runStateMachine rules height state now rt =
        ((mainprog.hitCheck height state now rt).1 ++
          (mainprog.gateAndCount rules height state now
            (mainprog.hitCheck height state now rt).2).1,
         (mainprog.gateAndCount rules height state now
            (mainprog.hitCheck height state now rt).2).2)) ∧
    (∀ (cfg : machine.Config) (rt : machine.Runtime) (height : Int)
        (state : machine.State) (now : Int),
      cfg.Enabled = true → rt.HitWaiting = true →
      (machine.Process cfg rt height state now).2.Count = rt.Count ∧
      (machine.Process cfg rt height state now).2.WaitingReverse =
        rt.WaitingReverse ∧
      ((machine.Process cfg rt height state now).1.map
          machine.Signal.typ = none ∨
        (machine.Process cfg rt height state now).1.map
          machine.Signal.typ = some "HIT")) := by
  constructor
  · intro rules height state now rt
    unfold mainprog.runStateMachine mainprog.hitCheck mainprog.gateAndCount
    by_cases h1 : rt.HitWaiting ∧ height = rt.HitBase + rt.HitOffset
    · by_cases h2 : state = rt.HitExpect
      · simp only [if_pos h1, if_pos h2]
        split_ifs <;> (try simp) <;> (try split_ifs) <;> simp
      · simp only [if_pos h1, if_neg h2]
        split_ifs <;> (try simp) <;> (try split_ifs) <;> simp
    · simp only [if_neg h1]
      split_ifs <;> (try simp) <;> (try split_ifs) <;> simp
  · intro cfg rt height state now hEn hW
    unfold machine.Process
    split_ifs <;> simp_all

/-- Witness for C1 at a concrete hit-waiting event on the backend
machine: count and waiting_reverse are untouched and no TRIGGER can
come out of the event. -/
theorem c1_witness :
    (machine.Process
      { ID := "m1", TriggerState := machine.ON, TriggerCount := 2,
        HitEnabled := true, HitExpect := machine.ON, HitOffset := 3,
        Enabled := true }
      { Count := 1, WaitingReverse := false, BaseHeight := 0,
        HitWaiting := true, HitTarget := 9 }
      6 machine.OFF 0).2.Count = 1 ∧
    (machine.Process
      { ID := "m1", TriggerState := machine.ON, TriggerCount := 2,
        HitEnabled := true, HitExpect := machine.ON, HitOffset := 3,
        Enabled := true }
      { Count := 1, WaitingReverse := false, BaseHeight := 0,
        HitWaiting := true, HitTarget := 9 }
      6 machine.OFF 0).2.WaitingReverse = false ∧
    ((machine.Process
      { ID := "m1", TriggerState := machine.ON, TriggerCount := 2,
        HitEnabled := true, HitExpect := machine.ON, HitOffset := 3,
        Enabled := true }
      { Count := 1, WaitingReverse := false, BaseHeight := 0,
        HitWaiting := true, HitTarget := 9 }
      6 machine.OFF 0).1.map machine.Signal.typ = none ∨
     (machine.Process
      { ID := "m1", TriggerState := machine.ON, TriggerCount := 2,
        HitEnabled := true, HitExpect := machine.ON, HitOffset := 3,
        Enabled := true }
      { Count := 1, WaitingReverse := false, BaseHeight := 0,
        HitWaiting := true, HitTarget := 9 }
      6 machine.OFF 0).1.map machine.Signal.typ = some "HIT") := by
  have h := c1_phase_order.2
    { ID := "m1", TriggerState := machine.ON, TriggerCount := 2,
      HitEnabled := true, HitExpect := machine.ON, HitOffset := 3,
      Enabled := true }
    { Count := 1, WaitingReverse := false, BaseHeight := 0,
      HitWaiting := true, HitTarget := 9 }
    6 machine.OFF 0 rfl rfl
  exact ⟨h.1, h.2.1, h.2.2⟩

lemma judgeState_lucky_eq (hash : List Char) :
    mainprog.judgeState "LUCKY".data hash =
      (match (lowerChars (trimChars hash)).reverse with
       | b :: a :: _ =>
         (match mainprog.charType a, mainprog.charType b with
          | some ta, some tb => some (if ta ≠ tb then "ON" else "OFF")
          | _, _ => none)
       | _ => none) := rfl

lemma judgeState_bigsmall_eq (hash : List Char) :
    mainprog.judgeState "BIGSMALL".data hash =
      (match mainprog.lastDigit hash with
       | none => none
       | some d => some (if d ≤ '4' then "ON" else "OFF")) := rfl

lemma judgeState_oddeven_eq (hash : List Char) :
    mainprog.judgeState "ODDEVEN".data hash =
      (match mainprog.lastDigit hash with
       | none => none
       | some d =>
         some (if (d.toNat - Char.toNat '0') % 2 = 0 then "ON" else "OFF")) :=
  rfl

lemma digit_char_not_hex_letter (c : Char) (h : '0' ≤ c ∧ c ≤ '9') :
    ¬('a' ≤ c ∧ c ≤ 'f') := by
  intro hc
  exact absurd (le_trans hc.1 h.2) (by decide)

lemma charType_eq_D_iff (c : Char) :
    mainprog.charType c = some "D" ↔ ('0' ≤ c ∧ c ≤ '9') := by
  unfold mainprog.charType
  split_ifs with h1 h2
  · exact iff_of_true rfl h1
  · exact iff_of_false (by simp) h1
  · exact iff_of_false (by simp) h1

lemma charType_eq_A_iff (c : Char) :
    mainprog.charType c = some "A" ↔ ('a' ≤ c ∧ c ≤ 'f') := by
  unfold mainprog.charType
  split_ifs with h1 h2
  · exact iff_of_false (by simp) (digit_char_not_hex_letter c h1)
  · exact iff_of_true rfl h2
  · exact iff_of_false (by simp) h2

lemma charType_some_cases (c : Char) (t : String)
    (h : mainprog.charType c = some t) : t = "D" ∨ t = "A" := by
  unfold mainprog.charType at h
  split_ifs at h <;> simp_all

/-- C5: under LUCKY, when the last two characters of the lower-cased
trimmed hash are both hex characters, the classification is ON exactly
when one is a decimal digit and the other a hex letter and OFF exactly
when both are of the same class; when either is outside 0-9a-f the
classification fails and the pipeline skips the block without running
the state machine. -/
theorem c5_lucky_rule (hash : List Char) (a b : Char) (init : List Char)
    (rules : mainprog.Rules) (height now : Int) (rt : mainprog.Runtime)
    (hL : lowerChars (trimChars hash) = init ++ [a, b]) :
    (((mainprog.charType a).isSome ∧ (mainprog.charType b).isSome) →
      ((mainprog.judgeState "LUCKY".data hash = some "ON") ↔
        ((('0' ≤ a ∧ a ≤ '9') ∧ ('a' ≤ b ∧ b ≤ 'f')) ∨
         (('a' ≤ a ∧ a ≤ 'f') ∧ ('0' ≤ b ∧ b ≤ '9')))) ∧
      ((mainprog.judgeState "LUCKY".data hash = some "OFF") ↔
        ((('0' ≤ a ∧ a ≤ '9') ∧ ('0' ≤ b ∧ b ≤ '9')) ∨
         (('a' ≤ a ∧ a ≤ 'f') ∧ ('a' ≤ b ∧ b ≤ 'f'))))) ∧
    ((mainprog.charType a = none ∨ mainprog.charType b = none) →
      mainprog.judgeState "LUCKY".data hash = none ∧
      mainprog.handleBlockJudge "LUCKY".data rules height hash now rt =
        ([], rt)) := by
  have hrev : (lowerChars (trimChars hash)).reverse =
      b :: a :: init.reverse := by
    rw [hL]
    simp
  constructor
  · rintro ⟨hsa, hsb⟩
    rw [judgeState_lucky_eq, hrev]
    rcases hca : mainprog.charType a with _ | ta
    · rw [hca] at hsa
      simp at hsa
    rcases hcb : mainprog.charType b with _ | tb
    · rw [hcb] at hsb
      simp at hsb
    have hAa : ¬(mainprog.charType a = some "A") → ¬('a' ≤ a ∧ a ≤ 'f') :=
      fun hn hp => hn ((charType_eq_A_iff a).mpr hp)
    have hAb : ¬(mainprog.charType b = some "A") → ¬('a' ≤ b ∧ b ≤ 'f') :=
      fun hn hp => hn ((charType_eq_A_iff b).mpr hp)
    have hDa : ¬(mainprog.charType a = some "D") → ¬('0' ≤ a ∧ a ≤ '9') :=
      fun hn hp => hn ((charType_eq_D_iff a).mpr hp)
    have hDb : ¬(mainprog.charType b = some "D") → ¬('0' ≤ b ∧ b ≤ '9') :=
      fun hn hp => hn ((charType_eq_D_iff b).mpr hp)
    rcases charType_some_cases a ta hca with rfl | rfl <;>
      rcases charType_some_cases b tb hcb with rfl | rfl
    · refine ⟨iff_of_false (by simp [hca, hcb]) ?_, iff_of_true (by simp [hca, hcb]) ?_⟩
      · rintro (⟨_, hp⟩ | ⟨hp, _⟩)
        · exact hAb (by simp [hcb]) hp
        · exact hAa (by simp [hca]) hp
      · exact Or.inl ⟨(charType_eq_D_iff a).mp hca,
          (charType_eq_D_iff b).mp hcb⟩
    · refine ⟨iff_of_true (by simp [hca, hcb]) ?_, iff_of_false (by simp [hca, hcb]) ?_⟩
      · exact Or.inl ⟨(charType_eq_D_iff a).mp hca,
          (charType_eq_A_iff b).mp hcb⟩
      · rintro (⟨_, hp⟩ | ⟨hp, _⟩)
        · exact hDb (by simp [hcb]) hp
        · exact hAa (by simp [hca]) hp
    · refine ⟨iff_of_true (by simp [hca, hcb]) ?_, iff_of_false (by simp [hca, hcb]) ?_⟩
      · exact Or.inr ⟨(charType_eq_A_iff a).mp hca,
          (charType_eq_D_iff b).mp hcb⟩
      · rintro (⟨hp, _⟩ | ⟨_, hp⟩)
        · exact hDa (by simp [hca]) hp
        · exact hAb (by simp [hcb]) hp
    · refine ⟨iff_of_false (by simp [hca, hcb]) ?_, iff_of_true (by simp [hca, hcb]) ?_⟩
      · rintro (⟨hp, _⟩ | ⟨_, hp⟩)
        · exact hDa (by simp [hca]) hp
        · exact hDb (by simp [hcb]) hp
      · exact Or.inr ⟨(charType_eq_A_iff a).mp hca,
          (charType_eq_A_iff b).mp hcb⟩
  · intro hnone
    have hj : mainprog.judgeState "LUCKY".data hash = none := by
      rw [judgeState_lucky_eq, hrev]
      rcases hnone with hn | hn <;>
        rcases hca : mainprog.charType a with _ | ta <;>
        rcases hcb : mainprog.charType b with _ | tb <;>
        simp_all
    refine ⟨hj, ?_⟩
    unfold mainprog.handleBlockJudge
    rw [hj]

/-- Witness for C5 at the concrete hash a3: the last two characters
are the hex letter a and the digit 3, and the theorem's equivalences
are checked there. -/
theorem c5_witness :
    (((mainprog.charType 'a').isSome ∧ (mainprog.charType '3').isSome) →
      ((mainprog.judgeState "LUCKY".data "a3".data = some "ON") ↔
        ((('0' ≤ 'a' ∧ 'a' ≤ '9') ∧ ('a' ≤ '3' ∧ '3' ≤ 'f')) ∨
         (('a' ≤ 'a' ∧ 'a' ≤ 'f') ∧ ('0' ≤ '3' ∧ '3' ≤ '9')))) ∧
      ((mainprog.judgeState "LUCKY".data "a3".data = some "OFF") ↔
        ((('0' ≤ 'a' ∧ 'a' ≤ '9') ∧ ('0' ≤ '3' ∧ '3' ≤ '9')) ∨
         (('a' ≤ 'a' ∧ 'a' ≤ 'f') ∧ ('a' ≤ '3' ∧ '3' ≤ 'f'))))) ∧
    ((mainprog.charType 'a' = none ∨ mainprog.charType '3' = none) →
      mainprog.judgeState "LUCKY".data "a3".data = none ∧
      mainprog.handleBlockJudge "LUCKY".data
        { On := { Enabled := false, Threshold := 0 },
          Off := { Enabled := false, Threshold := 0 },
          Hit := { Enabled := false, Expect := "ON", Offset := 0 } }
        10 "a3".data 0
        { OnCounter := 0, OffCounter := 0, WaitingReverse := true,
          LastTriggered := "", BaseHeight := 0, HitWaiting := false,
          HitBase := 0, HitOffset := 0, HitExpect := "",
          HitArmedTime := 0 } =
        ([],
         { OnCounter := 0, OffCounter := 0, WaitingReverse := true,
           LastTriggered := "", BaseHeight := 0, HitWaiting := false,
           HitBase := 0, HitOffset := 0, HitExpect := "",
           HitArmedTime := 0 })) :=
  c5_lucky_rule "a3".data 'a' '3' []
    { On := { Enabled := false, Threshold := 0 },
      Off := { Enabled := false, Threshold := 0 },
      Hit := { Enabled := false, Expect := "ON", Offset := 0 } }
    10 0
    { OnCounter := 0, OffCounter := 0, WaitingReverse := true,
      LastTriggered := "", BaseHeight := 0, HitWaiting := false,
      HitBase := 0, HitOffset := 0, HitExpect := "", HitArmedTime := 0 }
    (by decide)

lemma find?_append_all_false (p : Char → Bool) :
    ∀ (l1 l2 : List Char), (∀ c ∈ l1, p c = false) →
      (l1 ++ l2).find? p = l2.find? p := by
  intro l1
  induction l1 with
  | nil => intro l2 _; rfl
  | cons x xs ih =>
    intro l2 hall
    have hx : p x = false := hall x (List.mem_cons_self x xs)
    have hxs : ∀ c ∈ xs, p c = false :=
      fun c hc => hall c (List.mem_cons_of_mem x hc)
    simp [List.find?, hx, ih l2 hxs]

/-- C6: BIG_SMALL and ODD_EVEN both classify by the last decimal digit
of the trimmed hash (the first digit found scanning right to left):
BIG_SMALL maps 0-4 to ON and 5-9 to OFF, ODD_EVEN maps even to ON and
odd to OFF; a hash with no decimal digit fails classification under
both rules and the pipeline skips the block without running the state
machine. -/
theorem c6_digit_scan (hash u v : List Char) (d : Char)
    (rules : mainprog.Rules) (height now : Int) (rt : mainprog.Runtime) :
    (trimChars hash = u ++ d :: v → Char.isDigit d = true →
      (∀ c ∈ v, Char.isDigit c = false) →
      mainprog.judgeState "BIGSMALL".data hash =
        some (if d ≤ '4' then "ON" else "OFF") ∧
      mainprog.judgeState "ODDEVEN".data hash =
        some (if (d.toNat - Char.toNat '0') % 2 = 0 then "ON" else "OFF")) ∧
    ((∀ c ∈ trimChars hash, Char.isDigit c = false) →
      mainprog.judgeState "BIGSMALL".data hash = none ∧
      mainprog.judgeState "ODDEVEN".data hash = none ∧
      mainprog.handleBlockJudge "BIGSMALL".data rules height hash now rt =
        ([], rt) ∧
      mainprog.handleBlockJudge "ODDEVEN".data rules height hash now rt =
        ([], rt)) := by
  constructor
  · intro hsplit hd hv
    have hlast : mainprog.lastDigit hash = some d := by
      unfold mainprog.lastDigit
      rw [hsplit]
      have hrev : (u ++ d :: v).reverse = v.reverse ++ d :: u.reverse := by
        simp
      rw [hrev,
        find?_append_all_false Char.isDigit v.reverse (d :: u.reverse)
          (fun c hc => hv c (List.mem_reverse.mp hc))]
      simp [List.find?, hd]
    rw [judgeState_bigsmall_eq, judgeState_oddeven_eq, hlast]
    exact ⟨rfl, rfl⟩
  · intro hall
    have hlast : mainprog.lastDigit hash = none := by
      unfold mainprog.lastDigit
      rw [List.find?_eq_none]
      intro c hc
      simp [hall c (List.mem_reverse.mp hc)]
    refine ⟨?_, ?_, ?_, ?_⟩
    · rw [judgeState_bigsmall_eq, hlast]
    · rw [judgeState_oddeven_eq, hlast]
    · unfold mainprog.handleBlockJudge
      rw [judgeState_bigsmall_eq, hlast]
    · unfold mainprog.handleBlockJudge
      rw [judgeState_oddeven_eq, hlast]

/-- Witness for C6 at the concrete hash ab12cd: the last digit is 2,
so BIG_SMALL and ODD_EVEN both classify it ON. -/
theorem c6_witness :
    mainprog.judgeState "BIGSMALL".data "ab12cd".data =
      some (if '2' ≤ '4' then "ON" else "OFF") ∧
    mainprog.judgeState "ODDEVEN".data "ab12cd".data =
      some (if (Char.toNat '2' - Char.toNat '0') % 2 = 0
            then "ON" else "OFF") :=
  (c6_digit_scan "ab12cd".data "ab1".data "cd".data '2'
    { On := { Enabled := false, Threshold := 0 },
      Off := { Enabled := false, Threshold := 0 },
      Hit := { Enabled := false, Expect := "ON", Offset := 0 } }
    10 0
    { OnCounter := 0, OffCounter := 0, WaitingReverse := true,
      LastTriggered := "", BaseHeight := 0, HitWaiting := false,
      HitBase := 0, HitOffset := 0, HitExpect := "",
      HitArmedTime := 0 }).1
    (by decide) (by decide) (by decide)

lemma trimLoop_length_le (cap : Int) :
    ∀ (fuel : Nat) (buf : List block.Block) (seen : List block.Key),
      0 ≤ cap → ((buf.length : Int) ≤ cap + fuel) →
      (((block.trimLoop cap fuel buf seen).1.length : Int) ≤ cap) := by
  intro fuel
  induction fuel with
  | zero =>
    intro buf seen _ hlen
    simpa [block.trimLoop] using hlen
  | succ n ih =>
    intro buf seen h0 hlen
    by_cases hc : cap < (buf.length : Int)
    · have hne : buf ≠ [] := by
        intro hnil
        rw [hnil] at hc
        simp at hc
        omega
      obtain ⟨x, hx⟩ : ∃ x, buf.getLast? = some x := by
        cases hgl : buf.getLast? with
        | none => exact absurd (List.getLast?_eq_none_iff.mp hgl) hne
        | some y => exact ⟨y, rfl⟩
      have hlen2 : ((buf.dropLast.length : Nat) : Int) ≤ cap + n := by
        have hpos : 0 < buf.length := List.length_pos.mpr hne
        simp only [List.length_dropLast]
        push_cast
        omega
      simp only [block.trimLoop, if_pos hc, hx]
      exact ih buf.dropLast _ h0 hlen2
    · simp only [block.trimLoop, if_neg hc]
      omega

set_option maxRecDepth 40000 in
/-- C7: AddIfNew returns true exactly when the (height, hash) key is
absent from the seen-set, the buffer never grows beyond the capacity
or its previous length, and in the concrete 51-distinct-blocks
scenario the first block is evicted (its replay is new) while the 51st
is still present (its replay is a duplicate). -/
theorem c7_dedup_ring (r : block.RingBuffer) (b : block.Block)
    (h0 : 0 ≤ r.cap) :
    ((block.AddIfNew r b).1 = true ↔
      ({ Height := b.Height, Hash := b.Hash } : block.Key) ∉ r.seen) ∧
    (((block.AddIfNew r b).2.buf.length : Int) ≤
      max r.cap (r.buf.length : Int)) ∧
    ((block.AddIfNew
        (block.addAll (block.NewRingBuffer 50)
          ((List.range 51).map
            (fun i => ({ Height := toString i, Hash := "h", TimeUnix := 0,
                         SourceID := "" } : block.Block))))
        { Height := toString 0, Hash := "h", TimeUnix := 0,
          SourceID := "" }).1 = true ∧
     (block.AddIfNew
        (block.addAll (block.NewRingBuffer 50)
          ((List.range 51).map
            (fun i => ({ Height := toString i, Hash := "h", TimeUnix := 0,
                         SourceID := "" } : block.Block))))
        { Height := toString 50, Hash := "h", TimeUnix := 0,
          SourceID := "" }).1 = false) := by
  refine ⟨?_, ?_, by decide, by decide⟩
  · unfold block.AddIfNew
    by_cases hmem :
        ({ Height := b.Height, Hash := b.Hash } : block.Key) ∈ r.seen
    · simp [hmem]
    · simp [hmem]
  · simp only [block.AddIfNew]
    by_cases hmem :
        ({ Height := b.Height, Hash := b.Hash } : block.Key) ∈ r.seen
    · rw [if_pos hmem]
      exact le_max_right _ _
    · rw [if_neg hmem]
      have hb := trimLoop_length_le r.cap (b :: r.buf).length (b :: r.buf)
        ({ Height := b.Height, Hash := b.Hash } :: r.seen) h0
        (by push_cast; omega)
      simp only [block.trimOldest] at hb
      exact le_trans hb (le_max_left _ _)

/-- Witness for C7 at a concrete ring holding one block: replaying its
key reports a duplicate, a fresh key reports new, and the buffer stays
within bounds. -/
theorem c7_witness :
    ((block.AddIfNew
        { cap := 50,
          buf := [{ Height := "1", Hash := "h", TimeUnix := 0,
                    SourceID := "" }],
          seen := [{ Height := "1", Hash := "h" }] }
        { Height := "2", Hash := "h", TimeUnix := 0,
          SourceID := "" }).1 = true ↔
      ({ Height := "2", Hash := "h" } : block.Key) ∉
        [({ Height := "1", Hash := "h" } : block.Key)]) ∧
    (((block.AddIfNew
        { cap := 50,
          buf := [{ Height := "1", Hash := "h", TimeUnix := 0,
                    SourceID := "" }],
          seen := [{ Height := "1", Hash := "h" }] }
        { Height := "2", Hash := "h", TimeUnix := 0,
          SourceID := "" }).2.buf.length : Int) ≤
      max 50 ((1 : Nat) : Int)) := by
  have h := c7_dedup_ring
    { cap := 50,
      buf := [{ Height := "1", Hash := "h", TimeUnix := 0,
                SourceID := "" }],
      seen := [{ Height := "1", Hash := "h" }] }
    { Height := "2", Hash := "h", TimeUnix := 0, SourceID := "" }
    (by decide)
  exact ⟨h.1, h.2.1⟩

/-- Counterexample to C8 as stated: with a map iteration order that
visits machine m2 before machine m1 (Go leaves map iteration order
unspecified and randomizes it), ProcessBlock returns the two TRIGGER
signals as m2 then m1, which is not ascending machine_id order since
m1 < m2. -/
theorem c8_counterexample :
    (machine.ProcessBlock 7 machine.ON 0
      [{ Config := { ID := "m2", TriggerState := machine.ON,
                     TriggerCount := 1, HitEnabled := false,
                     HitExpect := machine.ON, HitOffset := 0,
                     Enabled := true },
         Runtime := { Count := 0, WaitingReverse := false,
                      BaseHeight := 0, HitWaiting := false,
                      HitTarget := 0 } },
       { Config := { ID := "m1", TriggerState := machine.ON,
                     TriggerCount := 1, HitEnabled := false,
                     HitExpect := machine.ON, HitOffset := 0,
                     Enabled := true },
         Runtime := { Count := 0, WaitingReverse := false,
                      BaseHeight := 0, HitWaiting := false,
                      HitTarget := 0 } }]).1.map machine.Signal.MachineID =
      ["m2", "m1"] ∧
    ("m1" : String) < "m2" := by
  constructor
  · decide
  · rw [String.lt_iff_toList_lt]
    exact List.Lex.cons (List.Lex.rel (by decide))

/-- C8 amended: ProcessBlock is order-preserving over the map's
iteration order — the signal list is the concatenation, machine by
machine in iteration order, of each machine's own (at most one)
signal, and the updated machine list keeps the iteration order with
each runtime advanced independently; for any fixed iteration order the
output is therefore a deterministic function of the machine set and
the event, but no ascending machine_id ordering is imposed. -/
theorem c8_iteration_order (height : Int) (state : machine.State)
    (now : Int) :
    ∀ ms : List machine.Machine,
      (machine.ProcessBlock height state now ms).1 =
        ms.flatMap (fun m =>
          (machine.Process m.Config m.Runtime height state now).1.toList) ∧
      (machine.ProcessBlock height state now ms).2 =
        ms.map (fun m =>
          { Config := m.Config,
            Runtime :=
              (machine.Process m.Config m.Runtime height state now).2 }) := by
  intro ms
  induction ms with
  | nil => exact ⟨rfl, rfl⟩
  | cons m rest ih =>
    refine ⟨?_, ?_⟩
    · simp only [machine.ProcessBlock, List.flatMap_cons, ih.1]
    · simp only [machine.ProcessBlock, List.map_cons, ih.2]

/-- C9: after the rule switch (modelled from the spec as installing
the rule, Manager.ResetAllRuntime and RingBuffer.Reset), every
machine's runtime has count 0, waiting_reverse set and no pending HIT,
and the dedup ring is empty. -/
theorem c9_rule_switch_resets (c : specmodel.Core) (r : String) :
    ((specmodel.SwitchJudgeRule c r).machines.all
      (fun m => m.Runtime.Count == 0 && m.Runtime.WaitingReverse &&
        !m.Runtime.HitWaiting)) = true ∧
    (specmodel.SwitchJudgeRule c r).ring.buf = [] ∧
    (specmodel.SwitchJudgeRule c r).ring.seen = [] := by
  refine ⟨?_, rfl, rfl⟩
  simp only [specmodel.SwitchJudgeRule, machine.ResetAllRuntime,
    List.all_map]
  apply List.all_eq_true.mpr
  intro m _
  rfl
